import Mathlib

/-!
# Nebulith DAO dashboard: derived values and component state

A shallow embedding of `frontend/src/app.jsx`: the mock proposal records, the two
derived-value functions `calculateProgress` and `calculateTimeRemaining`, the render
guards of the proposal card, and the component state with its user actions.

Two levels of arithmetic.  The functions named as in the source (`calculateProgress`,
`calculateTimeRemaining` and the values they compute) use exact integers and rationals:
they are the functions of the source with the rounding of its Number type left out.  The
namespace `Binary64` holds the same functions with every arithmetic operation rounded to
binary64, the Number type of the source, and with the Number-to-string conversion that a
template literal performs.  Statements that depend on rounding or on magnitude are made
about the `Binary64` functions.  `binary64_calculateTimeRemaining_eq` shows that both
levels of `calculateTimeRemaining` agree whenever `endBlock - currentBlock` is below
`2^53` in absolute value, and `binary64_total_eq` that the vote total is exact below
`2^53`.

In both levels a division whose divisor is zero has no finite value (the source language
yields NaN or an infinity); it is represented by `none`.  `Math.floor` is the integer
floor and `%` is the remainder truncated toward zero.
-/

namespace Nebulith

/-- A proposal record, with the fields of the objects in the `proposals` array.
Fields that some records omit (`amount`, `recipient`, `signatures`,
`requiredSignatures`) are optional: `none` stands for an absent property. -/
structure Proposal where
  id : Int
  title : String
  description : String
  proposer : String
  type : String
  amount : Option Int
  recipient : Option String
  state : String
  forVotes : Int
  againstVotes : Int
  abstainVotes : Int
  startBlock : Int
  endBlock : Int
  currentBlock : Int
  requiresMultisig : Bool
  signatures : Option Int
  requiredSignatures : Option Int
  createdAt : String
  deriving DecidableEq, Repr

/-- The object held by the `userStats` state variable. -/
structure UserStats where
  votingPower : Int
  delegatedPower : Int
  activeProposals : Int
  maxQueueSize : Int
  address : String
  deriving DecidableEq, Repr

/-- First element of the initial `proposals` array (lines 7-24). -/
def proposal1 : Proposal where
  id := 1
  title := "Increase Marketing Budget"
  description := "Allocate additional 500K tokens for Q2 marketing initiatives to expand community reach"
  proposer := "SP2ZRX...ABC123"
  type := "treasury"
  amount := some 500000
  recipient := some "SP1ABC...XYZ789"
  state := "Active"
  forVotes := 2500000
  againstVotes := 500000
  abstainVotes := 100000
  startBlock := 12450
  endBlock := 13458
  currentBlock := 12800
  requiresMultisig := false
  signatures := none
  requiredSignatures := none
  createdAt := "2025-01-15"

/-- Second element of the initial `proposals` array (lines 25-42). -/
def proposal2 : Proposal where
  id := 2
  title := "Update Governance Parameters"
  description := "Reduce voting delay from 144 blocks to 72 blocks to improve proposal responsiveness"
  proposer := "SP1XYZ...DEF456"
  type := "parameter"
  amount := none
  recipient := none
  state := "Awaiting Signatures"
  forVotes := 15000000
  againstVotes := 2000000
  abstainVotes := 500000
  startBlock := 11000
  endBlock := 12008
  currentBlock := 12800
  requiresMultisig := true
  signatures := some 1
  requiredSignatures := some 2
  createdAt := "2025-01-10"

/-- Third element of the initial `proposals` array (lines 43-58). -/
def proposal3 : Proposal where
  id := 3
  title := "Community Development Fund"
  description := "Establish dedicated fund for community-driven development projects"
  proposer := "SP3ABC...GHI789"
  type := "general"
  amount := none
  recipient := none
  state := "Pending"
  forVotes := 0
  againstVotes := 0
  abstainVotes := 0
  startBlock := 13000
  endBlock := 14008
  currentBlock := 12800
  requiresMultisig := false
  signatures := none
  requiredSignatures := none
  createdAt := "2025-01-16"

/-- Initial value of the `proposals` state variable (argument of `useState`, lines 6-59). -/
def initialProposals : List Proposal := [proposal1, proposal2, proposal3]

/-- Initial value of the `userStats` state variable (lines 61-67). -/
def initialUserStats : UserStats where
  votingPower := 150000
  delegatedPower := 50000
  activeProposals := 2
  maxQueueSize := 10
  address := "SP1ABC...XYZ789"

/-- The Number operator `/` on finite operands: a quotient by zero is NaN or an
infinity, which is no finite value (`none`); otherwise the exact quotient. -/
def numDiv (a b : ℚ) : Option ℚ :=
  if b = 0 then none else some (a / b)

/-- The object returned by `calculateProgress`. A percentage is `none` when its
computation went through a division by zero. -/
structure Progress where
  forPercentage : Option ℚ
  againstPercentage : Option ℚ
  total : Int
  deriving DecidableEq

/-- Lines 100-105:
`total = forVotes + againstVotes + abstainVotes`,
`forPercentage = total > 0 ? (forVotes / total) * 100 : 0`,
`againstPercentage = total > 0 ? (againstVotes / total) * 100 : 0`. -/
def calculateProgress (proposal : Proposal) : Progress :=
  let total := proposal.forVotes + proposal.againstVotes + proposal.abstainVotes
  let forPercentage :=
    if total > 0 then (numDiv proposal.forVotes total).map (fun q => q * 100) else some 0
  let againstPercentage :=
    if total > 0 then (numDiv proposal.againstVotes total).map (fun q => q * 100) else some 0
  { forPercentage := forPercentage, againstPercentage := againstPercentage, total := total }

/-- The Number operator `%` on integers: the remainder of the division truncated
toward zero, so the result takes the sign of the dividend. -/
def numRem (a b : Int) : Int := Int.tmod a b

/-- `Math.floor` of a finite Number. -/
def mathFloor (q : ℚ) : Int := Int.floor q

/-- Line 109: `remaining = proposal.endBlock - proposal.currentBlock`. -/
def remainingBlocks (proposal : Proposal) : Int :=
  proposal.endBlock - proposal.currentBlock

/-- Line 110: `days = Math.floor(remaining / 144)`. -/
def remainingDays (remaining : Int) : Int :=
  mathFloor ((remaining : ℚ) / 144)

/-- Line 111: `hours = Math.floor((remaining % 144) / 6)`. -/
def remainingHours (remaining : Int) : Int :=
  mathFloor (((numRem remaining 144 : Int) : ℚ) / 6)

/-- Line 112: the template literal with `days` and `hours` substituted, each integer
converted to its decimal string. -/
def formatRemaining (days hours : Int) : String :=
  toString days ++ "d " ++ toString hours ++ "h remaining"

/-- Lines 107-113. `none` is the `null` returned for a proposal that is not Active. -/
def calculateTimeRemaining (proposal : Proposal) : Option String :=
  if proposal.state ≠ "Active" then none
  else
    let remaining := remainingBlocks proposal
    let days := remainingDays remaining
    let hours := remainingHours remaining
    some (formatRemaining days hours)

/-- The specified day count: `floor(remaining / 144)`, as integer floor division. -/
def specDays (remaining : Int) : Int := Int.fdiv remaining 144

/-- The specified hour count, `floor((remaining mod 144) / 6)`, with `mod` the
mathematical modulo, whose value lies in the range 0..143. -/
def specHours (remaining : Int) : Int := Int.fdiv (remaining % 144) 6

/-- The hour count `floor(r / 6)` with `r` the remainder of `remaining` by 144 truncated
toward zero in place of the mathematical modulo. -/
def truncHours (remaining : Int) : Int := Int.fdiv (Int.tmod remaining 144) 6

/-- The specified text `"{days}d {hours}h remaining"` with both numbers in decimal. -/
def specText (days hours : Int) : String :=
  String.join [toString days, "d ", toString hours, "h remaining"]

/-- The values the state field is specified to range over. -/
def stateEnum : List String :=
  ["Pending", "Active", "Succeeded", "Defeated", "Executed", "Awaiting Signatures", "Cancelled"]

/-- The values the type field is specified to range over. -/
def typeEnum : List String := ["general", "treasury", "parameter"]

/-- Guard of the Treasury Info block (line 259): `proposal.type === 'treasury'`.
The block reads `proposal.amount` and `proposal.recipient`. -/
def rendersTreasuryInfo (proposal : Proposal) : Bool :=
  proposal.type == "treasury"

/-- Guard of the Multisig Status block (line 296):
`proposal.requiresMultisig && proposal.state === 'Awaiting Signatures'`.
The block reads `proposal.signatures` and `proposal.requiredSignatures`. -/
def rendersMultisigStatus (proposal : Proposal) : Bool :=
  proposal.requiresMultisig && proposal.state == "Awaiting Signatures"

/-- The optional properties of a proposal record. -/
inductive OptField where
  | amount
  | recipient
  | signatures
  | requiredSignatures
  deriving DecidableEq, Repr

/-- Whether the record has the property. -/
def Proposal.hasField (proposal : Proposal) : OptField → Bool
  | .amount => proposal.amount.isSome
  | .recipient => proposal.recipient.isSome
  | .signatures => proposal.signatures.isSome
  | .requiredSignatures => proposal.requiredSignatures.isSome

/-- The optional properties read while one proposal card is rendered (lines 258-304):
the Treasury Info block reads `amount` and `recipient`, the Multisig Status block reads
`signatures` and `requiredSignatures`; nothing else in the card reads them. -/
def cardReads (proposal : Proposal) : List OptField :=
  (if rendersTreasuryInfo proposal then [OptField.amount, OptField.recipient] else []) ++
  (if rendersMultisigStatus proposal then [OptField.signatures, OptField.requiredSignatures] else [])

/-- The array the tab buttons are mapped from (line 196). -/
def tabs : List String := ["proposals", "create", "delegate"]

/-- The three `useState` variables of the component (lines 5, 6, 61). -/
structure AppState where
  activeTab : String
  proposals : List Proposal
  userStats : UserStats
  deriving DecidableEq

/-- State of the component when it is mounted. -/
def initialState : AppState where
  activeTab := "proposals"
  proposals := initialProposals
  userStats := initialUserStats

/-- What a user can do with the rendered page. The tab buttons are the elements of
`tabs` in order; every other button has no `onClick`, and the form controls are
uncontrolled (no `value`, no `onChange`). -/
inductive Action where
  | clickTab (i : Fin 3)
  | clickConnectWallet
  | clickVoteFor (proposalId : Int)
  | clickVoteAgainst (proposalId : Int)
  | clickAbstain (proposalId : Int)
  | clickSignAsGuardian (proposalId : Int)
  | clickExecuteProposal (proposalId : Int)
  | clickCancel (proposalId : Int)
  | selectProposalType (option : String)
  | editTitle (text : String)
  | editDescription (text : String)
  | clickCreateProposal
  | editDelegateAddress (text : String)
  | editDelegateAmount (text : String)
  | clickDelegate
  | clickRevokeDelegation
  deriving DecidableEq

/-- The label of the tab button at a position of `tabs`. -/
def tabAt (i : Fin 3) : String := tabs.getD i.val "proposals"

/-- One user action. Only the tab buttons carry a handler,
`onClick={() => setActiveTab(tab)}` (line 199); `setProposals` and `setUserStats`
are never called. -/
def step (s : AppState) : Action → AppState
  | .clickTab i => { s with activeTab := tabAt i }
  | _ => s

/-- The state after a sequence of user actions. -/
def run (s : AppState) (actions : List Action) : AppState :=
  actions.foldl step s

/-- States the mounted component can be in. -/
inductive Reachable : AppState → Prop where
  | init : Reachable initialState
  | step {s : AppState} (a : Action) : Reachable s → Reachable (step s a)

/-- An Active proposal whose voting window ended one block before the current block:
the first mock proposal with `endBlock = 12799`. -/
def expiredProposal : Proposal := { proposal1 with endBlock := 12799 }

/-- Labels of the three vote buttons of a proposal card (lines 309-317). -/
def voteButtons : List String := ["Vote For", "Vote Against", "Abstain"]

/-- The buttons of the Actions block of a proposal card, in render order (lines 306-336):
`state === 'Active'` gives the three vote buttons, `state === 'Awaiting Signatures'`
gives Sign as Guardian, `state === 'Succeeded'` gives Execute Proposal, and
`state === 'Pending' || state === 'Active'` gives Cancel. -/
def actionButtons (proposal : Proposal) : List String :=
  (if proposal.state == "Active" then ["Vote For", "Vote Against", "Abstain"] else []) ++
  (if proposal.state == "Awaiting Signatures" then ["Sign as Guardian"] else []) ++
  (if proposal.state == "Succeeded" then ["Execute Proposal"] else []) ++
  (if proposal.state == "Pending" || proposal.state == "Active" then ["Cancel"] else [])

/-! ## Binary64 arithmetic

The definitions above compute with exact integers and rationals.  The source computes
with binary64 Numbers: every `+`, `-`, `*` and `/` returns the exact result rounded to
the nearest number with a 53-bit significand, ties going to the even significand.  The
definitions of `Binary64` below are the same functions of the source with that rounding
at each operation.  The exponent range is not bounded here, so overflow to an infinity
(magnitudes from `2^1024`) and gradual underflow (magnitudes below `2^-1022`) are not
represented. -/

/-- Round to the nearest integer, a tie to the even neighbour. -/
def roundHalfEven (x : ℚ) : Int :=
  let f := Int.floor x
  if x - f < 1 / 2 then f
  else if 1 / 2 < x - f then f + 1
  else if f % 2 = 0 then f else f + 1

/-- Exponent of the spacing of the binary64 grid around `q`: for
`2^k ≤ |q| < 2^(k+1)` consecutive numbers are `2^(k-52)` apart. -/
def ulpExp (q : ℚ) : Int := Int.log 2 |q| - 52

/-- The binary64 nearest to `q`, ties to even. -/
def round64 (q : ℚ) : ℚ := (roundHalfEven (q / 2 ^ ulpExp q) : ℚ) * 2 ^ ulpExp q

namespace Binary64

/-- The Number operator `+`. -/
def numAdd (a b : ℚ) : ℚ := round64 (a + b)

/-- The Number operator `-`. -/
def numSub (a b : ℚ) : ℚ := round64 (a - b)

/-- The Number operator `*`. -/
def numMul (a b : ℚ) : ℚ := round64 (a * b)

/-- The Number operator `/`: no finite value (`none`) for a zero divisor, otherwise the
rounded quotient. -/
def numDiv (a b : ℚ) : Option ℚ :=
  if b = 0 then none else some (round64 (a / b))

/-- The object returned by `calculateProgress`, its three Numbers as rationals. -/
structure Progress where
  forPercentage : Option ℚ
  againstPercentage : Option ℚ
  total : ℚ
  deriving DecidableEq

/-- Lines 100-105 with binary64 arithmetic:
`total = forVotes + againstVotes + abstainVotes` (two rounded additions, left to right),
`forPercentage = total > 0 ? (forVotes / total) * 100 : 0`,
`againstPercentage = total > 0 ? (againstVotes / total) * 100 : 0`. -/
def calculateProgress (proposal : Proposal) : Progress :=
  let total := numAdd (numAdd proposal.forVotes proposal.againstVotes) proposal.abstainVotes
  let forPercentage :=
    if total > 0 then (numDiv proposal.forVotes total).map (fun q => numMul q 100) else some 0
  let againstPercentage :=
    if total > 0 then (numDiv proposal.againstVotes total).map (fun q => numMul q 100) else some 0
  { forPercentage := forPercentage, againstPercentage := againstPercentage, total := total }

/-- Line 109: `remaining = proposal.endBlock - proposal.currentBlock`, one rounded
subtraction. The binary64 nearest to an integer is an integer; the floor reads it back
as one. -/
def remainingBlocks (proposal : Proposal) : Int :=
  Int.floor (numSub proposal.endBlock proposal.currentBlock)

/-- Line 110: `days = Math.floor(remaining / 144)`, the floor of the rounded quotient. -/
def remainingDays (remaining : Int) : Int :=
  mathFloor (round64 ((remaining : ℚ) / 144))

/-- Line 111: `hours = Math.floor((remaining % 144) / 6)`. The remainder `%` is exact
in binary64; the quotient by 6 is rounded. -/
def remainingHours (remaining : Int) : Int :=
  mathFloor (round64 (((numRem remaining 144 : Int) : ℚ) / 6))

/-- The pairs `(n, s)` of Number-to-string conversion for a digit count `k`: `s` has `k`
decimal digits and `s * 10^(n-k)` rounds to `x`. -/
def digitCandidates (x k : Nat) : List (Nat × Nat) :=
  let d := (Nat.toDigits 10 x).length
  [d, d + 1].flatMap fun n =>
    ([x / 10 ^ (n - k), x / 10 ^ (n - k) + 1].filter fun s =>
      decide (10 ^ (k - 1) ≤ s) && decide (s < 10 ^ k) &&
        decide (round64 ((s * 10 ^ (n - k) : Nat) : ℚ) = (x : ℚ))).map fun s => (n, s)

/-- Distance from `x` of the value `s * 10^(n-k)` of a candidate `(n, s)`. -/
def candidateDistance (x k : Nat) (c : Nat × Nat) : Nat :=
  let v := c.2 * 10 ^ (c.1 - k)
  if v ≤ x then x - v else v - x

/-- The candidate closest to `x`, the even `s` on a tie. -/
def closestCandidate (x k : Nat) : List (Nat × Nat) → Option (Nat × Nat)
  | [] => none
  | c :: rest =>
    match closestCandidate x k rest with
    | none => some c
    | some c2 =>
      if candidateDistance x k c < candidateDistance x k c2 then some c
      else if candidateDistance x k c2 < candidateDistance x k c then some c2
      else if c.2 % 2 = 0 then some c else some c2

/-- The triple `(k, n, s)` of Number-to-string conversion: the least digit count `k` for
which some `s * 10^(n-k)` rounds to `x`, with the closest such `s`. -/
def shortestDigits (x : Nat) : Option (Nat × Nat × Nat) :=
  (List.range (Nat.toDigits 10 x).length).findSome? fun i =>
    (closestCandidate x (i + 1) (digitCandidates x (i + 1))).map fun c => (i + 1, c.1, c.2)

/-- Number-to-string conversion of a non-negative integer Number. Below `2^53` every
integer is a binary64 and no shorter digit string reads back as it, so the result is the
decimal numeral. From `2^53` on it is the shortest digit string that reads back as `x`,
padded with zeros up to 21 digits and in exponent form beyond. -/
def natToString (x : Nat) : String :=
  if x < 2 ^ 53 then toString x
  else
    match shortestDigits x with
    | none => toString x
    | some (k, n, s) =>
      if n ≤ 21 then toString s ++ String.mk (List.replicate (n - k) '0')
      else
        String.mk ((Nat.toDigits 10 s).take 1) ++
          (if k = 1 then "" else "." ++ String.mk ((Nat.toDigits 10 s).drop 1)) ++
          "e+" ++ toString (n - 1)

/-- Number-to-string conversion of an integer Number, as a template literal applies it. -/
def numToString (n : Int) : String :=
  if n < 0 then "-" ++ natToString n.natAbs else natToString n.natAbs

/-- Line 112: the template literal with `days` and `hours` converted to strings. -/
def formatRemaining (days hours : Int) : String :=
  numToString days ++ "d " ++ numToString hours ++ "h remaining"

/-- Lines 107-113 with binary64 arithmetic. `none` is the `null` returned for a proposal
that is not Active. -/
def calculateTimeRemaining (proposal : Proposal) : Option String :=
  if proposal.state ≠ "Active" then none
  else
    let remaining := remainingBlocks proposal
    let days := remainingDays remaining
    let hours := remainingHours remaining
    some (formatRemaining days hours)

end Binary64

/-- A proposal with 2 votes for, 9 against and no abstention. -/
def roundingProposal : Proposal :=
  { proposal3 with state := "Active", forVotes := 2, againstVotes := 9, abstainVotes := 0 }

/-- A proposal with one abstention in a total of 6655427234288903 votes, below `2^53`. -/
def largeTallyProposal : Proposal :=
  { proposal3 with
    state := "Active", forVotes := 1207867057930514, againstVotes := 5447560176358388,
    abstainVotes := 1 }

/-- A proposal whose vote total `2^53 + 1` is not a binary64. -/
def unsafeTallyProposal : Proposal :=
  { proposal3 with
    state := "Active", forVotes := 9007199254740992, againstVotes := 1, abstainVotes := 0 }

/-- An Active proposal whose `endBlock` is a binary64 above `2^53`. -/
def farFutureProposal : Proposal :=
  { proposal1 with endBlock := 9007199254740996, currentBlock := 1 }

/-! ## Rounding -/

theorem roundHalfEven_of_floor (x : ℚ) (f : Int) (h1 : (f : ℚ) ≤ x) (h2 : x < f + 1) :
    roundHalfEven x =
      if x - f < 1 / 2 then f
      else if 1 / 2 < x - f then f + 1
      else if f % 2 = 0 then f else f + 1 := by
  have hf : Int.floor x = f := Int.floor_eq_iff.2 ⟨h1, h2⟩
  simp only [roundHalfEven, hf]

theorem roundHalfEven_sub_le (x : ℚ) : |(roundHalfEven x : ℚ) - x| ≤ 1 / 2 := by
  have h1 := Int.floor_le x
  have h2 := Int.lt_floor_add_one x
  rw [roundHalfEven_of_floor x _ h1 h2]
  rw [abs_le]
  split_ifs <;> push_cast <;> constructor <;> linarith

theorem roundHalfEven_intCast (n : Int) : roundHalfEven (n : ℚ) = n := by
  rw [roundHalfEven_of_floor (n : ℚ) n le_rfl (by linarith)]
  simp

theorem ulpExp_eq (q : ℚ) (e : Int) (hlo : (2 : ℚ) ^ (e + 52) ≤ |q|) (hhi : |q| < 2 ^ (e + 53)) :
    ulpExp q = e := by
  have hpos : 0 < |q| := lt_of_lt_of_le (by positivity) hlo
  have h1 : e + 52 ≤ Int.log 2 |q| :=
    (Int.zpow_le_iff_le_log (by norm_num) hpos).1 (by exact_mod_cast hlo)
  have h2 : Int.log 2 |q| < e + 53 :=
    (Int.lt_zpow_iff_log_lt (by norm_num) hpos).1 (by exact_mod_cast hhi)
  unfold ulpExp
  omega

theorem ulpExp_bounds (q : ℚ) (hq : q ≠ 0) :
    (2 : ℚ) ^ (ulpExp q + 52) ≤ |q| ∧ |q| < 2 ^ (ulpExp q + 53) := by
  have hpos : 0 < |q| := abs_pos.2 hq
  have h1 := Int.zpow_log_le_self (b := 2) (by norm_num) hpos
  have h2 := Int.lt_zpow_succ_log_self (b := 2) (by norm_num) |q|
  unfold ulpExp
  constructor
  · have : Int.log 2 |q| - 52 + 52 = Int.log 2 |q| := by omega
    rw [this]; exact_mod_cast h1
  · have : Int.log 2 |q| - 52 + 53 = Int.log 2 |q| + 1 := by omega
    rw [this]; exact_mod_cast h2

theorem round64_zero : round64 0 = 0 := by
  simp [round64, roundHalfEven]

theorem round64_sub_le (q : ℚ) : |round64 q - q| ≤ 2 ^ ulpExp q / 2 := by
  have hp : (0 : ℚ) < 2 ^ ulpExp q := by positivity
  have h := roundHalfEven_sub_le (q / 2 ^ ulpExp q)
  have e1 : round64 q - q = ((roundHalfEven (q / 2 ^ ulpExp q) : ℚ) - q / 2 ^ ulpExp q) * 2 ^ ulpExp q := by
    unfold round64
    field_simp
  rw [e1, abs_mul, abs_of_pos hp]
  calc |(roundHalfEven (q / 2 ^ ulpExp q) : ℚ) - q / 2 ^ ulpExp q| * 2 ^ ulpExp q
      ≤ 1 / 2 * 2 ^ ulpExp q := mul_le_mul_of_nonneg_right h hp.le
    _ = 2 ^ ulpExp q / 2 := by ring

theorem round64_rel_error (q : ℚ) : |round64 q - q| ≤ |q| / 2 ^ 53 := by
  by_cases hq : q = 0
  · subst hq; simp [round64_zero]
  · have h1 := round64_sub_le q
    have h2 := (ulpExp_bounds q hq).1
    have e : (2 : ℚ) ^ (ulpExp q + 52) = 2 ^ ulpExp q * 2 ^ 52 := by
      rw [zpow_add₀ (by norm_num)]; norm_num
    rw [e] at h2
    have hp : (0 : ℚ) < 2 ^ ulpExp q := by positivity
    calc |round64 q - q| ≤ 2 ^ ulpExp q / 2 := h1
      _ = 2 ^ ulpExp q * 2 ^ 52 / 2 ^ 53 := by field_simp; ring
      _ ≤ |q| / 2 ^ 53 := by gcongr

theorem round64_eval (q : ℚ) (e f : Int) (hlo : (2 : ℚ) ^ (e + 52) ≤ |q|)
    (hhi : |q| < 2 ^ (e + 53)) (h1 : (f : ℚ) ≤ q / 2 ^ e) (h2 : q / 2 ^ e < f + 1) :
    round64 q =
      ((if q / 2 ^ e - f < 1 / 2 then f
        else if 1 / 2 < q / 2 ^ e - f then f + 1
        else if f % 2 = 0 then f else f + 1 : Int) : ℚ) * 2 ^ e := by
  unfold round64
  rw [ulpExp_eq q e hlo hhi, roundHalfEven_of_floor _ f h1 h2]

theorem round64_of_scaled_int (q : ℚ) (m : Int) (h : q / 2 ^ ulpExp q = m) : round64 q = q := by
  unfold round64
  rw [h, roundHalfEven_intCast, ← h]
  field_simp

theorem round64_intCast (n : Int) (hn : |n| < 2 ^ 53) : round64 (n : ℚ) = n := by
  by_cases h0 : n = 0
  · subst h0; simpa using round64_zero
  · have hq : (n : ℚ) ≠ 0 := by exact_mod_cast h0
    have hb := (ulpExp_bounds (n : ℚ) hq).1
    have hlt : ((2 : ℚ) ^ (ulpExp (n : ℚ) + 52)) < 2 ^ ((53 : Nat) : Int) := by
      refine lt_of_le_of_lt hb ?_
      rw [zpow_natCast]
      exact_mod_cast hn
    have hle : ulpExp (n : ℚ) + 52 < ((53 : Nat) : Int) := (zpow_lt_zpow_iff_right₀ (by norm_num)).1 hlt
    obtain ⟨k, hk⟩ : ∃ k : Nat, ulpExp (n : ℚ) = -(k : Int) := ⟨(-ulpExp (n : ℚ)).toNat, by omega⟩
    apply round64_of_scaled_int _ (n * 2 ^ k)
    rw [hk, zpow_neg, zpow_natCast]
    push_cast
    field_simp

theorem round64_eval_pos (q : ℚ) (e f : Int) (hlo : (2 : ℚ) ^ (e + 52) ≤ q)
    (hhi : q < 2 ^ (e + 53)) (h1 : (f : ℚ) ≤ q / 2 ^ e) (h2 : q / 2 ^ e < f + 1) :
    round64 q =
      ((if q / 2 ^ e - f < 1 / 2 then f
        else if 1 / 2 < q / 2 ^ e - f then f + 1
        else if f % 2 = 0 then f else f + 1 : Int) : ℚ) * 2 ^ e := by
  have hpos : 0 < q := lt_of_lt_of_le (by positivity) hlo
  exact round64_eval q e f (by rwa [abs_of_pos hpos]) (by rwa [abs_of_pos hpos]) h1 h2

theorem floor_round64_div (n : Int) (d : Nat) (hd : 0 < d) (hn : |n| < 2 ^ 53) :
    Int.floor (round64 ((n : ℚ) / (d : ℚ))) = n / (d : Int) := by
  have hdq : (0 : ℚ) < (d : ℚ) := by exact_mod_cast hd
  have hdz : (0 : Int) < (d : Int) := by exact_mod_cast hd
  have hdiv : (d : Int) * (n / (d : Int)) + n % (d : Int) = n := Int.ediv_add_emod n d
  have hm0 : 0 ≤ n % (d : Int) := Int.emod_nonneg _ hdz.ne'
  have hm1 : n % (d : Int) < d := Int.emod_lt_of_pos _ hdz
  have hq : (n : ℚ) / d = (n / (d : Int) : Int) + ((n % (d : Int) : Int) : ℚ) / d := by
    field_simp
    have := congrArg (fun z : Int => (z : ℚ)) hdiv
    push_cast at this
    linarith
  by_cases hm : n % (d : Int) = 0
  · rw [hq, hm]
    simp only [Int.cast_zero, zero_div, add_zero]
    have hk : |n / (d : Int)| < 2 ^ 53 := by
      refine lt_of_le_of_lt ?_ hn
      have h3 : n = (d : Int) * (n / (d : Int)) := by omega
      have h4 : |n| = (d : Int) * |n / (d : Int)| := by
        conv_lhs => rw [h3]
        rw [abs_mul, abs_of_pos hdz]
      rw [h4]
      have h5 : 0 ≤ |n / (d : Int)| := abs_nonneg _
      nlinarith
    rw [round64_intCast _ hk, Int.floor_intCast]
  · have herr := round64_rel_error ((n : ℚ) / d)
    have habs : |(n : ℚ) / d| / 2 ^ 53 < 1 / d := by
      rw [abs_div, abs_of_pos hdq, div_div, div_lt_div_iff₀ (by positivity) hdq]
      have : |(n : ℚ)| < 2 ^ 53 := by exact_mod_cast hn
      nlinarith
    have hlt := lt_of_le_of_lt herr habs
    rw [abs_lt] at hlt
    have hm1q : ((n % (d : Int) : Int) : ℚ) ≤ d - 1 := by
      have : n % (d : Int) ≤ (d : Int) - 1 := by omega
      exact_mod_cast this
    have hm0q : (1 : ℚ) ≤ ((n % (d : Int) : Int) : ℚ) := by
      have : 1 ≤ n % (d : Int) := by omega
      exact_mod_cast this
    have hfr1 : (1 : ℚ) / d ≤ ((n % (d : Int) : Int) : ℚ) / d := by gcongr
    have hfr2 : ((n % (d : Int) : Int) : ℚ) / d ≤ 1 - 1 / d := by
      rw [div_le_iff₀ hdq]; field_simp; linarith
    rw [Int.floor_eq_iff]
    constructor <;> linarith

/-! ## Vote tally -/

theorem numDiv_of_pos (a : ℚ) (t : Int) (ht : 0 < t) : numDiv a t = some (a / t) := by
  have h : (t : ℚ) ≠ 0 := by exact_mod_cast ht.ne'
  simp [numDiv, h]

theorem calculateProgress_of_pos (p : Proposal)
    (ht : 0 < p.forVotes + p.againstVotes + p.abstainVotes) :
    calculateProgress p =
      { forPercentage := some ((p.forVotes : ℚ) / ((p.forVotes + p.againstVotes + p.abstainVotes : Int) : ℚ) * 100)
        againstPercentage := some ((p.againstVotes : ℚ) / ((p.forVotes + p.againstVotes + p.abstainVotes : Int) : ℚ) * 100)
        total := p.forVotes + p.againstVotes + p.abstainVotes } := by
  simp only [calculateProgress, gt_iff_lt, ht, if_true, numDiv_of_pos _ _ ht, Option.map_some']

theorem calculateProgress_of_not_pos (p : Proposal)
    (ht : ¬ 0 < p.forVotes + p.againstVotes + p.abstainVotes) :
    calculateProgress p =
      { forPercentage := some 0, againstPercentage := some 0
        total := p.forVotes + p.againstVotes + p.abstainVotes } := by
  simp only [calculateProgress, gt_iff_lt, ht, if_false]


/-! ## Time remaining -/

theorem remainingDays_eq_ediv (r : Int) : remainingDays r = r / 144 := by
  have h := Rat.floor_intCast_div_natCast r 144
  simpa [remainingDays, mathFloor] using h

theorem remainingHours_eq_ediv (r : Int) : remainingHours r = Int.tmod r 144 / 6 := by
  have h := Rat.floor_intCast_div_natCast (Int.tmod r 144) 6
  simpa [remainingHours, mathFloor, numRem] using h

theorem calculateTimeRemaining_of_active (p : Proposal) (h : p.state = "Active") :
    calculateTimeRemaining p =
      some (formatRemaining (remainingDays (remainingBlocks p))
        (remainingHours (remainingBlocks p))) := by
  simp [calculateTimeRemaining, h]

theorem calculateTimeRemaining_of_not_active (p : Proposal) (h : p.state ≠ "Active") :
    calculateTimeRemaining p = none := by
  simp [calculateTimeRemaining, h]

theorem specText_eq_formatRemaining (d h : Int) : specText d h = formatRemaining d h := by
  simp [specText, formatRemaining, String.join]


/-- C3: `calculateProgress` never divides by zero: both percentages of every proposal are
finite values, and for every proposal whose three vote counts sum to 0 the result is
`forPercentage = 0`, `againstPercentage = 0`, `total = 0`; the mock proposal with id 3
is such a proposal. -/
theorem calculateProgress_zero_total :
    (∀ p : Proposal, (calculateProgress p).forPercentage ≠ none ∧
      (calculateProgress p).againstPercentage ≠ none) ∧
    (∀ p : Proposal, p.forVotes + p.againstVotes + p.abstainVotes = 0 →
      calculateProgress p = { forPercentage := some 0, againstPercentage := some 0, total := 0 }) ∧
    (∃ p ∈ initialProposals, p.id = 3) ∧
    (∀ p ∈ initialProposals, p.id = 3 →
      calculateProgress p = { forPercentage := some 0, againstPercentage := some 0, total := 0 }) := by
  refine ⟨?_, ?_, ⟨proposal3, by decide, by decide⟩, ?_⟩
  · intro p
    by_cases ht : 0 < p.forVotes + p.againstVotes + p.abstainVotes
    · rw [calculateProgress_of_pos p ht]; simp
    · rw [calculateProgress_of_not_pos p ht]; simp
  · intro p h
    have ht : ¬ 0 < p.forVotes + p.againstVotes + p.abstainVotes := by omega
    rw [calculateProgress_of_not_pos p ht, h]
  · intro p hp hid
    have hp3 : p = proposal3 := by
      simp only [initialProposals, List.mem_cons, List.mem_singleton, List.not_mem_nil,
        or_false] at hp
      rcases hp with rfl | rfl | rfl
      · exact absurd hid (by decide)
      · exact absurd hid (by decide)
      · rfl
    subst hp3
    rw [calculateProgress_of_not_pos proposal3 (by decide)]
    simp [proposal3]

/-- C4: for a proposal whose state is not `Active`, whatever else it holds,
`calculateTimeRemaining` returns null; for an Active proposal it returns a string. -/
theorem calculateTimeRemaining_null_iff (p : Proposal) :
    (p.state ≠ "Active" → calculateTimeRemaining p = none) ∧
    (p.state = "Active" → ∃ text : String, calculateTimeRemaining p = some text) ∧
    (calculateTimeRemaining p = none ↔ p.state ≠ "Active") := by
  refine ⟨calculateTimeRemaining_of_not_active p, ?_, ?_⟩
  · intro h
    exact ⟨_, calculateTimeRemaining_of_active p h⟩
  · constructor
    · intro hn hs
      rw [calculateTimeRemaining_of_active p hs] at hn
      exact Option.some_ne_none _ hn
    · exact calculateTimeRemaining_of_not_active p

theorem calculateTimeRemaining_null_iff_witness :
    calculateTimeRemaining proposal2 = none ∧ calculateTimeRemaining proposal3 = none ∧
    ∃ text : String, calculateTimeRemaining proposal1 = some text :=
  ⟨(calculateTimeRemaining_null_iff proposal2).1 (by decide),
   (calculateTimeRemaining_null_iff proposal3).1 (by decide),
   (calculateTimeRemaining_null_iff proposal1).2.1 (by decide)⟩

/-- C6: for the mock proposal with id 1 (Active, `endBlock = 13458`,
`currentBlock = 12800`) `calculateTimeRemaining` returns exactly `4d 13h remaining`. -/
theorem calculateTimeRemaining_proposal1 :
    proposal1.id = 1 ∧ proposal1.state = "Active" ∧ proposal1.endBlock = 13458 ∧
    proposal1.currentBlock = 12800 ∧
    calculateTimeRemaining proposal1 = some "4d 13h remaining" := by
  refine ⟨by decide, by decide, by decide, by decide, ?_⟩
  rw [calculateTimeRemaining_of_active _ (by decide), remainingDays_eq_ediv,
    remainingHours_eq_ediv]
  decide

/-! ## Component state -/

theorem tabAt_mem_tabs (i : Fin 3) : tabAt i ∈ tabs := by
  revert i
  decide

theorem step_proposals (s : AppState) (a : Action) : (step s a).proposals = s.proposals := by
  cases a <;> rfl

theorem step_userStats (s : AppState) (a : Action) : (step s a).userStats = s.userStats := by
  cases a <;> rfl

theorem step_eq_of_not_clickTab (s : AppState) (a : Action) (h : ∀ i, a ≠ Action.clickTab i) :
    step s a = s := by
  cases a <;> first | rfl | exact absurd rfl (h _)

theorem step_activeTab_mem (s : AppState) (a : Action) (h : s.activeTab ∈ tabs) :
    (step s a).activeTab ∈ tabs := by
  cases a <;> first | exact h | exact tabAt_mem_tabs _

theorem reachable_frame (s : AppState) (h : Reachable s) :
    s.proposals = initialProposals ∧ s.userStats = initialUserStats ∧ s.activeTab ∈ tabs := by
  induction h with
  | init => exact ⟨rfl, rfl, by decide⟩
  | step a _ ih =>
    exact ⟨(step_proposals _ a).trans ih.1, (step_userStats _ a).trans ih.2.1,
      step_activeTab_mem _ a ih.2.2⟩

theorem reachable_run (s : AppState) (h : Reachable s) (actions : List Action) :
    Reachable (run s actions) := by
  induction actions generalizing s with
  | nil => exact h
  | cons a rest ih => exact ih (step s a) (Reachable.step a h)

/-- C7: in every state reachable by user actions `proposals` and `userStats` have their
initial mock values and `activeTab` is one of `proposals`, `create`, `delegate`; an action
changes the state only if it is a tab click, every action leaves `proposals` and
`userStats` unchanged, and the state field of each proposal stays what it was initially. -/
theorem reachable_state_static (s : AppState) (h : Reachable s) :
    s.proposals = initialProposals ∧
    s.userStats = initialUserStats ∧
    s.activeTab ∈ tabs ∧
    s.proposals.map (fun p => p.state) = ["Active", "Awaiting Signatures", "Pending"] ∧
    ∀ a : Action,
      (step s a ≠ s → ∃ i, a = Action.clickTab i) ∧
      (∀ i, a = Action.clickTab i → (step s a).activeTab = tabs.getD i.val "proposals" ∧
        (step s a).activeTab ∈ tabs) ∧
      (step s a).proposals = s.proposals ∧
      (step s a).userStats = s.userStats := by
  obtain ⟨hp, hu, ht⟩ := reachable_frame s h
  refine ⟨hp, hu, ht, by rw [hp]; decide, ?_⟩
  intro a
  refine ⟨?_, ?_, step_proposals s a, step_userStats s a⟩
  · intro hne
    by_contra hno
    exact hne (step_eq_of_not_clickTab s a (fun i hi => hno ⟨i, hi⟩))
  · intro i hi
    subst hi
    exact ⟨rfl, tabAt_mem_tabs i⟩

theorem reachable_state_static_witness :
    Reachable (run initialState [Action.clickVoteFor 1, Action.clickTab 2, Action.editDelegateAmount "5"]) ∧
    (run initialState [Action.clickVoteFor 1, Action.clickTab 2, Action.editDelegateAmount "5"]).activeTab
      = "delegate" ∧
    (run initialState [Action.clickVoteFor 1, Action.clickTab 2, Action.editDelegateAmount "5"]).proposals
      = initialProposals ∧
    (run initialState [Action.clickVoteFor 1, Action.clickTab 2, Action.editDelegateAmount "5"]).userStats
      = initialUserStats := by
  have hr : Reachable (run initialState
      [Action.clickVoteFor 1, Action.clickTab 2, Action.editDelegateAmount "5"]) :=
    reachable_run _ Reachable.init _
  have h := reachable_state_static _ hr
  exact ⟨hr, rfl, h.1, h.2.1⟩

/-! ## Mock data -/

/-- C8: the proposals of the initial list have pairwise different ids, non-negative
`forVotes`, `againstVotes` and `abstainVotes`, `endBlock ≥ startBlock`, a state among
Pending, Active, Succeeded, Defeated, Executed, Awaiting Signatures, Cancelled and a type
among general, treasury, parameter. -/
theorem initialProposals_invariants :
    List.Pairwise (fun p q : Proposal => p.id ≠ q.id) initialProposals ∧
    (∀ p ∈ initialProposals, ∀ q ∈ initialProposals, p.id = q.id → p = q) ∧
    ∀ p ∈ initialProposals,
      0 ≤ p.forVotes ∧ 0 ≤ p.againstVotes ∧ 0 ≤ p.abstainVotes ∧
      p.endBlock ≥ p.startBlock ∧
      p.state ∈ stateEnum ∧ p.type ∈ typeEnum := by
  decide

/-- C9: in the initial list `amount` and `recipient` are present only on a proposal of
type treasury, `signatures` and `requiredSignatures` only on one with
`requiresMultisig = true`; and every optional field that rendering a card reads (the
Treasury Info and Multisig Status blocks) is present on the proposal rendered. -/
theorem initialProposals_optional_fields :
    ∀ p ∈ initialProposals,
      (p.amount.isSome = true → p.type = "treasury") ∧
      (p.recipient.isSome = true → p.type = "treasury") ∧
      (p.signatures.isSome = true → p.requiresMultisig = true) ∧
      (p.requiredSignatures.isSome = true → p.requiresMultisig = true) ∧
      (rendersTreasuryInfo p = true → p.amount.isSome = true ∧ p.recipient.isSome = true) ∧
      (rendersMultisigStatus p = true →
        p.signatures.isSome = true ∧ p.requiredSignatures.isSome = true) ∧
      ∀ f ∈ cardReads p, p.hasField f = true := by
  decide

theorem initialProposals_optional_fields_witness :
    proposal1 ∈ initialProposals ∧ rendersTreasuryInfo proposal1 = true ∧
    proposal1.amount = some 500000 ∧
    proposal2 ∈ initialProposals ∧ rendersMultisigStatus proposal2 = true ∧
    proposal2.signatures = some 1 ∧
    (∀ f ∈ cardReads proposal1, proposal1.hasField f = true) ∧
    (∀ f ∈ cardReads proposal2, proposal2.hasField f = true) :=
  ⟨by decide, by decide, by decide, by decide, by decide, by decide,
   (initialProposals_optional_fields proposal1 (by decide)).2.2.2.2.2.2,
   (initialProposals_optional_fields proposal2 (by decide)).2.2.2.2.2.2⟩

/-! ## Expired voting window -/

theorem formatRemaining_neg (d h : Int) (hd : d ≤ -1) :
    ∃ rest : String, formatRemaining d h = "-" ++ rest := by
  cases d with
  | ofNat n =>
    have h0 : (0 : Int) ≤ (n : Int) := Int.ofNat_zero_le n
    have hd2 : (n : Int) ≤ -1 := hd
    omega
  | negSucc n =>
    refine ⟨toString (n + 1) ++ "d " ++ toString h ++ "h remaining", ?_⟩
    show ("-" ++ toString (n + 1)) ++ "d " ++ toString h ++ "h remaining" = _
    simp only [String.append_assoc]

theorem minus_append_ne_zero_text (rest : String) : "-" ++ rest ≠ "0d 0h remaining" := by
  intro h
  have hd := congrArg String.data h
  have hd2 : ('-' :: rest.data) = ('0' :: "d 0h remaining".data) := hd
  exact absurd (List.cons.inj hd2).1 (by decide)

theorem tmod_nonpos_of_nonpos (a : Int) (ha : a ≤ 0) : Int.tmod a 144 ≤ 0 := by
  obtain ⟨c, rfl⟩ : ∃ c, a = -c := ⟨-a, by omega⟩
  have h := @Int.tmod_nonneg c 144 (by omega)
  rw [Int.tmod_def] at h ⊢
  rw [Int.neg_tdiv]
  generalize c.tdiv 144 = q at *
  omega

/-- C11: `calculateTimeRemaining` does not clamp an expired voting window. For every
Active proposal with `currentBlock > endBlock` the computed days is at most -1 and the
computed hours is at most 0, and the result is a string that begins with a minus sign,
neither null nor `0d 0h remaining`; with `endBlock = 12799` and `currentBlock = 12800`
it is `-1d -1h remaining`. -/
theorem calculateTimeRemaining_expired :
    (∀ p : Proposal, p.state = "Active" → p.currentBlock > p.endBlock →
      ∃ days hours : Int,
        days = remainingDays (p.endBlock - p.currentBlock) ∧
        hours = remainingHours (p.endBlock - p.currentBlock) ∧
        calculateTimeRemaining p = some (formatRemaining days hours) ∧
        days ≤ -1 ∧ hours ≤ 0 ∧
        (∃ rest : String, formatRemaining days hours = "-" ++ rest) ∧
        calculateTimeRemaining p ≠ none ∧
        calculateTimeRemaining p ≠ some "0d 0h remaining") ∧
    (expiredProposal.state = "Active" ∧ expiredProposal.endBlock = 12799 ∧
      expiredProposal.currentBlock = 12800 ∧
      calculateTimeRemaining expiredProposal = some "-1d -1h remaining") := by
  constructor
  · intro p h hlt
    have hc := calculateTimeRemaining_of_active p h
    have hd : remainingDays (p.endBlock - p.currentBlock) ≤ -1 := by
      rw [remainingDays_eq_ediv]; omega
    have hh : remainingHours (p.endBlock - p.currentBlock) ≤ 0 := by
      rw [remainingHours_eq_ediv]
      have h1 := tmod_nonpos_of_nonpos (p.endBlock - p.currentBlock) (by omega)
      omega
    obtain ⟨rest, hrest⟩ := formatRemaining_neg _ (remainingHours (p.endBlock - p.currentBlock)) hd
    refine ⟨_, _, rfl, rfl, hc, hd, hh, ⟨rest, hrest⟩, ?_, ?_⟩
    · rw [hc]; exact Option.some_ne_none _
    · rw [hc]
      intro he
      have he2 := Option.some.inj he
      rw [remainingBlocks, hrest] at he2
      exact minus_append_ne_zero_text rest he2
  · refine ⟨by decide, by decide, by decide, ?_⟩
    rw [calculateTimeRemaining_of_active _ (by decide), remainingDays_eq_ediv,
      remainingHours_eq_ediv]
    decide

theorem calculateTimeRemaining_expired_witness :
    (expiredProposal.state = "Active" ∧ expiredProposal.currentBlock > expiredProposal.endBlock) ∧
    ∃ days hours : Int,
      days = remainingDays (expiredProposal.endBlock - expiredProposal.currentBlock) ∧
      hours = remainingHours (expiredProposal.endBlock - expiredProposal.currentBlock) ∧
      calculateTimeRemaining expiredProposal = some (formatRemaining days hours) ∧
      days ≤ -1 ∧ hours ≤ 0 ∧
      (∃ rest : String, formatRemaining days hours = "-" ++ rest) ∧
      calculateTimeRemaining expiredProposal ≠ none ∧
      calculateTimeRemaining expiredProposal ≠ some "0d 0h remaining" :=
  ⟨by decide, calculateTimeRemaining_expired.1 expiredProposal (by decide) (by decide)⟩

/-! ## Action buttons -/

theorem actionButtons_of_state (p : Proposal) :
    actionButtons p =
      if p.state = "Active" then ["Vote For", "Vote Against", "Abstain", "Cancel"]
      else if p.state = "Pending" then ["Cancel"]
      else if p.state = "Awaiting Signatures" then ["Sign as Guardian"]
      else if p.state = "Succeeded" then ["Execute Proposal"]
      else [] := by
  unfold actionButtons
  by_cases h1 : p.state = "Active"
  · simp [h1]
  · by_cases h2 : p.state = "Pending"
    · simp [h2]
    · by_cases h3 : p.state = "Awaiting Signatures"
      · simp [h3]
      · by_cases h4 : p.state = "Succeeded"
        · simp [h4]
        · simp [h1, h2, h3, h4]

/-- C12: the action buttons of a proposal card depend on the state of the proposal alone:
Active gives Vote For, Vote Against, Abstain, Cancel; Pending gives Cancel; Awaiting
Signatures gives Sign as Guardian; Succeeded gives Execute Proposal; any other state
gives no button. A vote button is rendered if and only if `calculateTimeRemaining`
returns a non-null value for the proposal. -/
theorem actionButtons_by_state (p : Proposal) :
    (∀ q : Proposal, q.state = p.state → actionButtons q = actionButtons p) ∧
    (p.state = "Active" →
      actionButtons p = ["Vote For", "Vote Against", "Abstain", "Cancel"]) ∧
    (p.state = "Pending" → actionButtons p = ["Cancel"]) ∧
    (p.state = "Awaiting Signatures" → actionButtons p = ["Sign as Guardian"]) ∧
    (p.state = "Succeeded" → actionButtons p = ["Execute Proposal"]) ∧
    (p.state ∉ ["Active", "Pending", "Awaiting Signatures", "Succeeded"] →
      actionButtons p = []) ∧
    (∀ b ∈ voteButtons, b ∈ actionButtons p ↔ calculateTimeRemaining p ≠ none) ∧
    ((∃ b ∈ voteButtons, b ∈ actionButtons p) ↔ calculateTimeRemaining p ≠ none) := by
  have hv : ∀ b ∈ voteButtons, b ∈ actionButtons p ↔ calculateTimeRemaining p ≠ none := by
    intro b hb
    rw [actionButtons_of_state]
    by_cases h1 : p.state = "Active"
    · rw [calculateTimeRemaining_of_active p h1, if_pos h1]
      simp only [voteButtons, List.mem_cons, List.mem_singleton, List.not_mem_nil,
        or_false] at hb
      rcases hb with rfl | rfl | rfl <;> simp
    · rw [calculateTimeRemaining_of_not_active p h1, if_neg h1]
      simp only [voteButtons, List.mem_cons, List.mem_singleton, List.not_mem_nil,
        or_false] at hb
      rcases hb with rfl | rfl | rfl <;> split_ifs <;> simp
  refine ⟨?_, ?_, ?_, ?_, ?_, ?_, hv, ?_⟩
  · intro q hq
    rw [actionButtons_of_state, actionButtons_of_state, hq]
  · intro h
    rw [actionButtons_of_state, if_pos h]
  · intro h
    rw [actionButtons_of_state, h]
    decide
  · intro h
    rw [actionButtons_of_state, h]
    decide
  · intro h
    rw [actionButtons_of_state, h]
    decide
  · intro h
    simp only [List.mem_cons, List.mem_singleton, List.not_mem_nil, or_false, not_or] at h
    rw [actionButtons_of_state, if_neg h.1, if_neg h.2.1, if_neg h.2.2.1, if_neg h.2.2.2]
  · constructor
    · rintro ⟨b, hb, hmem⟩
      exact (hv b hb).1 hmem
    · intro hn
      exact ⟨"Vote For", by decide, (hv "Vote For" (by decide)).2 hn⟩

theorem actionButtons_by_state_witness :
    actionButtons proposal1 = ["Vote For", "Vote Against", "Abstain", "Cancel"] ∧
    actionButtons proposal2 = ["Sign as Guardian"] ∧
    actionButtons proposal3 = ["Cancel"] :=
  ⟨(actionButtons_by_state proposal1).2.1 (by decide),
   (actionButtons_by_state proposal2).2.2.2.1 (by decide),
   (actionButtons_by_state proposal3).2.2.1 (by decide)⟩


/-! ## Vote tally in binary64 -/

theorem round64_bounds_of_nonneg (x : ℚ) (hx : 0 ≤ x) :
    x * (1 - 1 / 2 ^ 53) ≤ round64 x ∧ round64 x ≤ x * (1 + 1 / 2 ^ 53) := by
  have h := round64_rel_error x
  rw [abs_of_nonneg hx, abs_le] at h
  constructor <;> linarith

theorem percentage_bounds (x : ℚ) (hx : 0 ≤ x) :
    0 ≤ round64 (round64 x * 100) ∧
    round64 (round64 x * 100) ≤ x * 100 * (1 + 1 / 2 ^ 53) ^ 2 ∧
    |round64 (round64 x * 100) - x * 100| ≤ x * 100 / 2 ^ 51 := by
  obtain ⟨h1, h2⟩ := round64_bounds_of_nonneg x hx
  have hr : 0 ≤ round64 x := le_trans (mul_nonneg hx (by norm_num)) h1
  have hr100 : 0 ≤ round64 x * 100 := mul_nonneg hr (by norm_num)
  obtain ⟨h3, h4⟩ := round64_bounds_of_nonneg (round64 x * 100) hr100
  have h0 : 0 ≤ round64 (round64 x * 100) := le_trans (mul_nonneg hr100 (by norm_num)) h3
  refine ⟨h0, ?_, ?_⟩
  · calc round64 (round64 x * 100) ≤ round64 x * 100 * (1 + 1 / 2 ^ 53) := h4
      _ ≤ x * (1 + 1 / 2 ^ 53) * 100 * (1 + 1 / 2 ^ 53) := by gcongr
      _ = x * 100 * (1 + 1 / 2 ^ 53) ^ 2 := by ring
  · rw [abs_le]
    constructor
    · nlinarith
    · nlinarith

theorem binary64_total_eq (p : Proposal) (hf : 0 ≤ p.forVotes) (ha : 0 ≤ p.againstVotes)
    (hb : 0 ≤ p.abstainVotes) (hlt : p.forVotes + p.againstVotes + p.abstainVotes < 2 ^ 53) :
    (Binary64.calculateProgress p).total =
      ((p.forVotes + p.againstVotes + p.abstainVotes : Int) : ℚ) := by
  have h1 : Binary64.numAdd (p.forVotes : ℚ) (p.againstVotes : ℚ)
      = ((p.forVotes + p.againstVotes : Int) : ℚ) := by
    unfold Binary64.numAdd
    rw [← Int.cast_add]
    exact round64_intCast _ (by rw [abs_of_nonneg (by omega)]; omega)
  have h2 : Binary64.numAdd ((p.forVotes + p.againstVotes : Int) : ℚ) (p.abstainVotes : ℚ)
      = ((p.forVotes + p.againstVotes + p.abstainVotes : Int) : ℚ) := by
    unfold Binary64.numAdd
    rw [← Int.cast_add]
    exact round64_intCast _ (by rw [abs_of_nonneg (by omega)]; omega)
  show Binary64.numAdd (Binary64.numAdd (p.forVotes : ℚ) (p.againstVotes : ℚ))
    (p.abstainVotes : ℚ) = _
  rw [h1, h2]

theorem binary64_calculateProgress_of_pos (p : Proposal) (t : ℚ)
    (ht : (Binary64.calculateProgress p).total = t) (hpos : 0 < t) :
    (Binary64.calculateProgress p).forPercentage
      = some (round64 (round64 ((p.forVotes : ℚ) / t) * 100)) ∧
    (Binary64.calculateProgress p).againstPercentage
      = some (round64 (round64 ((p.againstVotes : ℚ) / t) * 100)) := by
  have ht2 : Binary64.numAdd (Binary64.numAdd (p.forVotes : ℚ) (p.againstVotes : ℚ))
    (p.abstainVotes : ℚ) = t := ht
  have hne : t ≠ 0 := hpos.ne'
  constructor
  · show (if Binary64.numAdd (Binary64.numAdd (p.forVotes : ℚ) (p.againstVotes : ℚ))
        (p.abstainVotes : ℚ) > 0 then _ else _) = _
    rw [ht2, if_pos hpos]
    simp [Binary64.numDiv, Binary64.numMul, hne]
  · show (if Binary64.numAdd (Binary64.numAdd (p.forVotes : ℚ) (p.againstVotes : ℚ))
        (p.abstainVotes : ℚ) > 0 then _ else _) = _
    rw [ht2, if_pos hpos]
    simp [Binary64.numDiv, Binary64.numMul, hne]

theorem binary64_calculateProgress_of_not_pos (p : Proposal) (t : ℚ)
    (ht : (Binary64.calculateProgress p).total = t) (hpos : ¬ 0 < t) :
    (Binary64.calculateProgress p).forPercentage = some 0 ∧
    (Binary64.calculateProgress p).againstPercentage = some 0 := by
  have ht2 : Binary64.numAdd (Binary64.numAdd (p.forVotes : ℚ) (p.againstVotes : ℚ))
    (p.abstainVotes : ℚ) = t := ht
  constructor
  · show (if Binary64.numAdd (Binary64.numAdd (p.forVotes : ℚ) (p.againstVotes : ℚ))
        (p.abstainVotes : ℚ) > 0 then _ else _) = _
    rw [ht2, if_neg hpos]
  · show (if Binary64.numAdd (Binary64.numAdd (p.forVotes : ℚ) (p.againstVotes : ℚ))
        (p.abstainVotes : ℚ) > 0 then _ else _) = _
    rw [ht2, if_neg hpos]


/-- C1, amended: for a proposal whose three vote counts are non-negative integers with a
positive sum below `2^53`, `calculateProgress` returns `total` equal to the sum and each
percentage equal to the binary64 rounding of `100` times the binary64 rounding of
`votes / total`; each percentage differs from the exact rational `votes / total * 100`
by at most that value divided by `2^51`. -/
theorem binary64_calculateProgress_formula (p : Proposal)
    (hf : 0 ≤ p.forVotes) (ha : 0 ≤ p.againstVotes) (hb : 0 ≤ p.abstainVotes)
    (hpos : 0 < p.forVotes + p.againstVotes + p.abstainVotes)
    (hlt : p.forVotes + p.againstVotes + p.abstainVotes < 2 ^ 53) :
    (Binary64.calculateProgress p).total =
      ((p.forVotes + p.againstVotes + p.abstainVotes : Int) : ℚ) ∧
    (Binary64.calculateProgress p).forPercentage =
      some (round64 (round64 ((p.forVotes : ℚ) / (Binary64.calculateProgress p).total) * 100)) ∧
    (Binary64.calculateProgress p).againstPercentage =
      some (round64 (round64 ((p.againstVotes : ℚ) / (Binary64.calculateProgress p).total) * 100)) ∧
    |round64 (round64 ((p.forVotes : ℚ) / (Binary64.calculateProgress p).total) * 100)
        - (p.forVotes : ℚ) / (Binary64.calculateProgress p).total * 100|
      ≤ (p.forVotes : ℚ) / (Binary64.calculateProgress p).total * 100 / 2 ^ 51 ∧
    |round64 (round64 ((p.againstVotes : ℚ) / (Binary64.calculateProgress p).total) * 100)
        - (p.againstVotes : ℚ) / (Binary64.calculateProgress p).total * 100|
      ≤ (p.againstVotes : ℚ) / (Binary64.calculateProgress p).total * 100 / 2 ^ 51 := by
  have ht := binary64_total_eq p hf ha hb hlt
  have htpos : (0 : ℚ) < ((p.forVotes + p.againstVotes + p.abstainVotes : Int) : ℚ) := by
    exact_mod_cast hpos
  obtain ⟨h1, h2⟩ := binary64_calculateProgress_of_pos p _ ht htpos
  have hfq : (0 : ℚ) ≤ (p.forVotes : ℚ) := by exact_mod_cast hf
  have haq : (0 : ℚ) ≤ (p.againstVotes : ℚ) := by exact_mod_cast ha
  rw [ht]
  exact ⟨rfl, h1, h2, (percentage_bounds _ (div_nonneg hfq htpos.le)).2.2,
    (percentage_bounds _ (div_nonneg haq htpos.le)).2.2⟩

theorem binary64_calculateProgress_formula_witness :
    (0 ≤ proposal1.forVotes ∧ 0 ≤ proposal1.againstVotes ∧ 0 ≤ proposal1.abstainVotes ∧
      0 < proposal1.forVotes + proposal1.againstVotes + proposal1.abstainVotes ∧
      proposal1.forVotes + proposal1.againstVotes + proposal1.abstainVotes < 2 ^ 53) ∧
    (Binary64.calculateProgress proposal1).total = 3100000 := by
  refine ⟨by decide, ?_⟩
  rw [(binary64_calculateProgress_formula proposal1 (by decide) (by decide) (by decide)
    (by decide) (by decide)).1]
  simp [proposal1]

/-- C1, as stated, fails: for the first mock proposal the code returns
`forPercentage = 5674898724005161 / 2^46` (printed 80.64516129032258), which is not the
exact rational `2500000 / 3100000 * 100`; and for vote counts `2^53`, 1, 0 it returns
`total = 2^53`, which is not their sum. -/
theorem calculateProgress_exact_counterexample :
    (0 ≤ proposal1.forVotes ∧ 0 ≤ proposal1.againstVotes ∧ 0 ≤ proposal1.abstainVotes ∧
      0 < proposal1.forVotes + proposal1.againstVotes + proposal1.abstainVotes) ∧
    (Binary64.calculateProgress proposal1).total = 3100000 ∧
    (Binary64.calculateProgress proposal1).forPercentage
      = some (5674898724005161 / 70368744177664) ∧
    (Binary64.calculateProgress proposal1).forPercentage
      ≠ some ((proposal1.forVotes : ℚ) / (3100000 : ℚ) * 100) ∧
    (0 ≤ unsafeTallyProposal.forVotes ∧ 0 ≤ unsafeTallyProposal.againstVotes ∧
      0 ≤ unsafeTallyProposal.abstainVotes ∧
      0 < unsafeTallyProposal.forVotes + unsafeTallyProposal.againstVotes
        + unsafeTallyProposal.abstainVotes) ∧
    (Binary64.calculateProgress unsafeTallyProposal).total = 9007199254740992 ∧
    (Binary64.calculateProgress unsafeTallyProposal).total
      ≠ ((unsafeTallyProposal.forVotes + unsafeTallyProposal.againstVotes
          + unsafeTallyProposal.abstainVotes : Int) : ℚ) := by
  have ht : (Binary64.calculateProgress proposal1).total = 3100000 := by
    rw [binary64_total_eq proposal1 (by decide) (by decide) (by decide) (by decide)]
    simp [proposal1]
  have e1 : round64 ((2500000 : ℚ) / 3100000) = 3631935183363303 / 4503599627370496 := by
    rw [round64_eval_pos _ (-53) 7263870366726606 (by norm_num) (by norm_num) (by norm_num)
      (by norm_num)]
    norm_num
  have e2 : round64 ((3631935183363303 : ℚ) / 4503599627370496 * 100)
      = 5674898724005161 / 70368744177664 := by
    rw [round64_eval_pos _ (-46) 5674898724005160 (by norm_num) (by norm_num) (by norm_num)
      (by norm_num)]
    norm_num
  have hfp : (Binary64.calculateProgress proposal1).forPercentage
      = some (5674898724005161 / 70368744177664) := by
    rw [(binary64_calculateProgress_of_pos proposal1 3100000 ht (by norm_num)).1]
    have : ((proposal1.forVotes : Int) : ℚ) = 2500000 := by simp [proposal1]
    rw [this, e1, e2]
  have e3 : round64 ((9007199254740992 : ℚ) + 1) = 9007199254740992 := by
    rw [round64_eval_pos _ 1 4503599627370496 (by norm_num) (by norm_num) (by norm_num)
      (by norm_num)]
    norm_num
  have e4 : round64 ((9007199254740992 : ℚ) + 0) = 9007199254740992 := by
    rw [round64_eval_pos _ 1 4503599627370496 (by norm_num) (by norm_num) (by norm_num)
      (by norm_num)]
    norm_num
  have htu : (Binary64.calculateProgress unsafeTallyProposal).total = 9007199254740992 := by
    show Binary64.numAdd (Binary64.numAdd ((unsafeTallyProposal.forVotes : Int) : ℚ)
      ((unsafeTallyProposal.againstVotes : Int) : ℚ)) ((unsafeTallyProposal.abstainVotes : Int) : ℚ)
      = _
    have h1 : ((unsafeTallyProposal.forVotes : Int) : ℚ) = 9007199254740992 := by
      simp [unsafeTallyProposal]
    have h2 : ((unsafeTallyProposal.againstVotes : Int) : ℚ) = 1 := by
      simp [unsafeTallyProposal]
    have h3 : ((unsafeTallyProposal.abstainVotes : Int) : ℚ) = 0 := by
      simp [unsafeTallyProposal]
    rw [h1, h2, h3]
    unfold Binary64.numAdd
    rw [e3, e4]
  refine ⟨by decide, ht, hfp, ?_, by decide, htu, ?_⟩
  · rw [hfp]
    have : ((proposal1.forVotes : Int) : ℚ) = 2500000 := by simp [proposal1]
    rw [this]
    intro h
    have h2 := Option.some.inj h
    norm_num at h2
  · rw [htu]
    simp [unsafeTallyProposal]


/-- C2, amended: for a proposal with non-negative vote counts whose sum is below `2^53`,
both percentages are finite and non-negative and their sum is at most
`100 * (1 + 2^-53)^2`; the sum reaches 100 only when `total > 0`, and, for a sum of votes
up to `2^51`, only when `abstainVotes = 0`. -/
theorem binary64_calculateProgress_sum_bound (p : Proposal)
    (hf : 0 ≤ p.forVotes) (ha : 0 ≤ p.againstVotes) (hb : 0 ≤ p.abstainVotes)
    (hlt : p.forVotes + p.againstVotes + p.abstainVotes < 2 ^ 53) :
    ∃ fp ap : ℚ,
      (Binary64.calculateProgress p).forPercentage = some fp ∧
      (Binary64.calculateProgress p).againstPercentage = some ap ∧
      0 ≤ fp ∧ 0 ≤ ap ∧
      fp + ap ≤ 100 * (1 + 1 / 2 ^ 53) ^ 2 ∧
      (100 ≤ fp + ap →
        0 < (Binary64.calculateProgress p).total ∧
        (p.forVotes + p.againstVotes + p.abstainVotes ≤ 2 ^ 51 → p.abstainVotes = 0)) := by
  have ht := binary64_total_eq p hf ha hb hlt
  by_cases hpos : 0 < p.forVotes + p.againstVotes + p.abstainVotes
  · have htpos : (0 : ℚ) < ((p.forVotes + p.againstVotes + p.abstainVotes : Int) : ℚ) := by
      exact_mod_cast hpos
    obtain ⟨h1, h2⟩ := binary64_calculateProgress_of_pos p _ ht htpos
    have hfq : (0 : ℚ) ≤ (p.forVotes : ℚ) := by exact_mod_cast hf
    have haq : (0 : ℚ) ≤ (p.againstVotes : ℚ) := by exact_mod_cast ha
    have hbq : (0 : ℚ) ≤ (p.abstainVotes : ℚ) := by exact_mod_cast hb
    obtain ⟨x0, x1, _⟩ := percentage_bounds _ (div_nonneg hfq htpos.le)
    obtain ⟨y0, y1, _⟩ := percentage_bounds _ (div_nonneg haq htpos.le)
    have hsum : (p.forVotes : ℚ) / ((p.forVotes + p.againstVotes + p.abstainVotes : Int) : ℚ)
        + (p.againstVotes : ℚ) / ((p.forVotes + p.againstVotes + p.abstainVotes : Int) : ℚ)
        = 1 - (p.abstainVotes : ℚ)
          / ((p.forVotes + p.againstVotes + p.abstainVotes : Int) : ℚ) := by
      rw [eq_sub_iff_add_eq, ← add_div, ← add_div, div_eq_one_iff_eq htpos.ne']
      push_cast
      ring
    have hab0 : 0 ≤ (p.abstainVotes : ℚ)
        / ((p.forVotes + p.againstVotes + p.abstainVotes : Int) : ℚ) :=
      div_nonneg hbq htpos.le
    refine ⟨_, _, h1, h2, x0, y0, ?_, ?_⟩
    · nlinarith
    · intro h100
      rw [ht]
      refine ⟨htpos, ?_⟩
      intro hsmall
      by_contra hne
      have hb1 : (1 : ℚ) ≤ (p.abstainVotes : ℚ) := by
        have : 1 ≤ p.abstainVotes := by omega
        exact_mod_cast this
      have hts : ((p.forVotes + p.againstVotes + p.abstainVotes : Int) : ℚ) ≤ 2 ^ 51 := by
        exact_mod_cast hsmall
      have hfrac : (1 : ℚ) / 2 ^ 51 ≤ (p.abstainVotes : ℚ)
          / ((p.forVotes + p.againstVotes + p.abstainVotes : Int) : ℚ) := by
        rw [div_le_div_iff₀ (by norm_num) htpos]
        nlinarith
      have hxy : (p.forVotes : ℚ) / ((p.forVotes + p.againstVotes + p.abstainVotes : Int) : ℚ)
          + (p.againstVotes : ℚ) / ((p.forVotes + p.againstVotes + p.abstainVotes : Int) : ℚ)
          ≤ 1 - 1 / 2 ^ 51 := by
        rw [hsum]; linarith
      have hxy0 : 0 ≤ (p.forVotes : ℚ)
          / ((p.forVotes + p.againstVotes + p.abstainVotes : Int) : ℚ)
          + (p.againstVotes : ℚ) / ((p.forVotes + p.againstVotes + p.abstainVotes : Int) : ℚ) :=
        add_nonneg (div_nonneg hfq htpos.le) (div_nonneg haq htpos.le)
      have hcalc : ((1 : ℚ) - 1 / 2 ^ 51) * 100 * (1 + 1 / 2 ^ 53) ^ 2 < 100 := by norm_num
      have hmono : ((p.forVotes : ℚ) / ((p.forVotes + p.againstVotes + p.abstainVotes : Int) : ℚ)
          + (p.againstVotes : ℚ) / ((p.forVotes + p.againstVotes + p.abstainVotes : Int) : ℚ))
          * 100 * (1 + 1 / 2 ^ 53) ^ 2 ≤ ((1 : ℚ) - 1 / 2 ^ 51) * 100 * (1 + 1 / 2 ^ 53) ^ 2 := by
        gcongr
      nlinarith
  · have hz : ¬ (0 : ℚ) < ((p.forVotes + p.againstVotes + p.abstainVotes : Int) : ℚ) := by
      intro h; exact hpos (by exact_mod_cast h)
    obtain ⟨h1, h2⟩ := binary64_calculateProgress_of_not_pos p _ ht hz
    refine ⟨0, 0, h1, h2, le_rfl, le_rfl, by norm_num, ?_⟩
    intro h
    norm_num at h

theorem binary64_calculateProgress_sum_bound_witness :
    (0 ≤ proposal2.forVotes ∧ 0 ≤ proposal2.againstVotes ∧ 0 ≤ proposal2.abstainVotes ∧
      proposal2.forVotes + proposal2.againstVotes + proposal2.abstainVotes < 2 ^ 53) ∧
    ∃ fp ap : ℚ,
      (Binary64.calculateProgress proposal2).forPercentage = some fp ∧
      (Binary64.calculateProgress proposal2).againstPercentage = some ap ∧
      0 ≤ fp ∧ 0 ≤ ap ∧
      fp + ap ≤ 100 * (1 + 1 / 2 ^ 53) ^ 2 ∧
      (100 ≤ fp + ap →
        0 < (Binary64.calculateProgress proposal2).total ∧
        (proposal2.forVotes + proposal2.againstVotes + proposal2.abstainVotes ≤ 2 ^ 51 →
          proposal2.abstainVotes = 0)) :=
  ⟨by decide, binary64_calculateProgress_sum_bound proposal2 (by decide) (by decide) (by decide)
    (by decide)⟩


/-- C2, as stated, fails. With 2 votes for, 9 against and no abstention the code returns
percentages `5117726849284655 / 2^48` and `5757442705445237 / 2^46`, whose sum exceeds
100 by `3 / 2^48`. With 1207867057930514 for, 5447560176358388 against and 1 abstention
the two percentages sum to exactly 100 although `abstainVotes` is not 0. -/
theorem calculateProgress_sum_counterexample :
    (0 ≤ roundingProposal.forVotes ∧ 0 ≤ roundingProposal.againstVotes ∧
      0 ≤ roundingProposal.abstainVotes) ∧
    (Binary64.calculateProgress roundingProposal).forPercentage
      = some (5117726849284655 / 281474976710656) ∧
    (Binary64.calculateProgress roundingProposal).againstPercentage
      = some (5757442705445237 / 70368744177664) ∧
    ¬ ((5117726849284655 : ℚ) / 281474976710656 + 5757442705445237 / 70368744177664 ≤ 100) ∧
    (0 ≤ largeTallyProposal.forVotes ∧ 0 ≤ largeTallyProposal.againstVotes ∧
      0 ≤ largeTallyProposal.abstainVotes) ∧
    (Binary64.calculateProgress largeTallyProposal).forPercentage
      = some (638547196205815 / 35184372088832) ∧
    (Binary64.calculateProgress largeTallyProposal).againstPercentage
      = some (2879890012677385 / 35184372088832) ∧
    (638547196205815 : ℚ) / 35184372088832 + 2879890012677385 / 35184372088832 = 100 ∧
    largeTallyProposal.abstainVotes ≠ 0 := by
  have e1 : round64 ((2 : ℚ) / 11) = 3275345183542179 / 18014398509481984 := by
    rw [round64_eval_pos _ (-55) 6550690367084357 (by norm_num) (by norm_num) (by norm_num) (by norm_num)]
    norm_num
  have e2 : round64 ((3275345183542179 : ℚ) / 18014398509481984 * 100) = 5117726849284655 / 281474976710656 := by
    rw [round64_eval_pos _ (-48) 5117726849284654 (by norm_num) (by norm_num) (by norm_num) (by norm_num)]
    norm_num
  have e3 : round64 ((9 : ℚ) / 11) = 7369526662969903 / 9007199254740992 := by
    rw [round64_eval_pos _ (-53) 7369526662969902 (by norm_num) (by norm_num) (by norm_num) (by norm_num)]
    norm_num
  have e4 : round64 ((7369526662969903 : ℚ) / 9007199254740992 * 100) = 5757442705445237 / 70368744177664 := by
    rw [round64_eval_pos _ (-46) 5757442705445236 (by norm_num) (by norm_num) (by norm_num) (by norm_num)]
    norm_num
  have e5 : round64 ((1207867057930514 : ℚ) / 6655427234288903) = 6538723289147545 / 36028797018963968 := by
    rw [round64_eval_pos _ (-55) 6538723289147544 (by norm_num) (by norm_num) (by norm_num) (by norm_num)]
    norm_num
  have e6 : round64 ((6538723289147545 : ℚ) / 36028797018963968 * 100) = 638547196205815 / 35184372088832 := by
    rw [round64_eval_pos _ (-48) 5108377569646519 (by norm_num) (by norm_num) (by norm_num) (by norm_num)]
    norm_num
  have e7 : round64 ((5447560176358388 : ℚ) / 6655427234288903) = 7372518432454105 / 9007199254740992 := by
    rw [round64_eval_pos _ (-53) 7372518432454104 (by norm_num) (by norm_num) (by norm_num) (by norm_num)]
    norm_num
  have e8 : round64 ((7372518432454105 : ℚ) / 9007199254740992 * 100) = 2879890012677385 / 35184372088832 := by
    rw [round64_eval_pos _ (-46) 5759780025354769 (by norm_num) (by norm_num) (by norm_num) (by norm_num)]
    norm_num
  have ht1 : (Binary64.calculateProgress roundingProposal).total = 11 := by
    rw [binary64_total_eq roundingProposal (by decide) (by decide) (by decide) (by decide)]
    simp [roundingProposal]
  have ht2 : (Binary64.calculateProgress largeTallyProposal).total = 6655427234288903 := by
    rw [binary64_total_eq largeTallyProposal (by decide) (by decide) (by decide) (by decide)]
    simp [largeTallyProposal]
  obtain ⟨a1, a2⟩ := binary64_calculateProgress_of_pos roundingProposal 11 ht1 (by norm_num)
  obtain ⟨b1, b2⟩ :=
    binary64_calculateProgress_of_pos largeTallyProposal 6655427234288903 ht2 (by norm_num)
  have c1 : ((roundingProposal.forVotes : Int) : ℚ) = 2 := by simp [roundingProposal]
  have c2 : ((roundingProposal.againstVotes : Int) : ℚ) = 9 := by simp [roundingProposal]
  have c3 : ((largeTallyProposal.forVotes : Int) : ℚ) = 1207867057930514 := by
    simp [largeTallyProposal]
  have c4 : ((largeTallyProposal.againstVotes : Int) : ℚ) = 5447560176358388 := by
    simp [largeTallyProposal]
  rw [c1, e1, e2] at a1
  rw [c2, e3, e4] at a2
  rw [c3, e5, e6] at b1
  rw [c4, e7, e8] at b2
  exact ⟨by decide, a1, a2, by norm_num, by decide, b1, b2, by norm_num, by decide⟩


/-! ## Time remaining in binary64 -/

theorem abs_tmod_lt (a : Int) : |Int.tmod a 144| < 144 := by
  rcases le_total 0 a with h | h
  · rw [Int.tmod_eq_emod h (by decide), abs_lt]
    omega
  · obtain ⟨c, rfl⟩ : ∃ c, a = -c := ⟨-a, by omega⟩
    have h0 := @Int.tmod_nonneg c 144 (by omega)
    have h1 := Int.tmod_lt_of_pos c (show (0 : Int) < 144 by decide)
    rw [Int.tmod_def] at h0 h1 ⊢
    rw [Int.neg_tdiv, abs_lt]
    generalize c.tdiv 144 = q at *
    omega

theorem binary64_remainingBlocks_eq (p : Proposal)
    (h : |p.endBlock - p.currentBlock| < 2 ^ 53) :
    Binary64.remainingBlocks p = p.endBlock - p.currentBlock := by
  unfold Binary64.remainingBlocks Binary64.numSub
  rw [← Int.cast_sub, round64_intCast _ h, Int.floor_intCast]

theorem binary64_remainingDays_eq (r : Int) (h : |r| < 2 ^ 53) :
    Binary64.remainingDays r = r / 144 := by
  have h1 := floor_round64_div r 144 (by decide) h
  simpa [Binary64.remainingDays, mathFloor] using h1

theorem binary64_remainingHours_eq (r : Int) :
    Binary64.remainingHours r = Int.tmod r 144 / 6 := by
  have hb : |Int.tmod r 144| < 2 ^ 53 := lt_trans (abs_tmod_lt r) (by norm_num)
  have h1 := floor_round64_div (Int.tmod r 144) 6 (by decide) hb
  simpa [Binary64.remainingHours, mathFloor, numRem] using h1

theorem numToString_eq_toString (n : Int) (h : |n| < 2 ^ 53) :
    Binary64.numToString n = toString n := by
  have hn : n.natAbs < 2 ^ 53 := by
    have : (n.natAbs : Int) < 2 ^ 53 := by rw [Int.natCast_natAbs]; exact h
    exact_mod_cast this
  unfold Binary64.numToString Binary64.natToString
  rw [if_pos hn]
  cases n with
  | ofNat m =>
    have h0 : ¬ (Int.ofNat m < 0) := by
      have : (0 : Int) ≤ (m : Int) := Int.ofNat_zero_le m
      intro hlt
      have hlt2 : (m : Int) < 0 := hlt
      omega
    rw [if_neg h0]
    rfl
  | negSucc m =>
    rw [if_pos (Int.negSucc_lt_zero m)]
    rfl

theorem binary64_calculateTimeRemaining_eq (p : Proposal)
    (h : |p.endBlock - p.currentBlock| < 2 ^ 53) :
    Binary64.calculateTimeRemaining p = calculateTimeRemaining p := by
  have hr := binary64_remainingBlocks_eq p h
  have hd : |(p.endBlock - p.currentBlock) / 144| < 2 ^ 53 := by
    rw [abs_lt] at h ⊢
    omega
  have hh : |Int.tmod (p.endBlock - p.currentBlock) 144 / 6| < 2 ^ 53 := by
    have h1 := abs_tmod_lt (p.endBlock - p.currentBlock)
    rw [abs_lt] at h1 ⊢
    omega
  unfold Binary64.calculateTimeRemaining calculateTimeRemaining
  by_cases hs : p.state ≠ "Active"
  · rw [if_pos hs, if_pos hs]
  · rw [if_neg hs, if_neg hs]
    simp only [hr, remainingBlocks]
    rw [binary64_remainingDays_eq _ h, binary64_remainingHours_eq, remainingDays_eq_ediv,
      remainingHours_eq_ediv]
    unfold Binary64.formatRemaining formatRemaining
    rw [numToString_eq_toString _ hd, numToString_eq_toString _ hh]

theorem binary64_farFuture_remaining :
    Binary64.remainingBlocks farFutureProposal = 9007199254740996 := by
  have e1 : round64 ((9007199254740996 : ℚ) - 1) = 9007199254740996 := by
    rw [round64_eval_pos _ 1 4503599627370497 (by norm_num) (by norm_num) (by norm_num)
      (by norm_num)]
    norm_num
  have c1 : ((farFutureProposal.endBlock : Int) : ℚ) = 9007199254740996 := by
    simp [farFutureProposal]
  have c2 : ((farFutureProposal.currentBlock : Int) : ℚ) = 1 := by
    simp [farFutureProposal]
  unfold Binary64.remainingBlocks Binary64.numSub
  rw [c1, c2, e1]
  exact Int.floor_eq_iff.2 ⟨by norm_num, by norm_num⟩

theorem binary64_farFuture_days : Binary64.remainingDays 9007199254740996 = 62549994824590 := by
  have e1 : round64 ((9007199254740996 : ℚ) / 144) = 9007199254740996 / 144 := by
    rw [round64_eval_pos _ (-7) 8006399337547552 (by norm_num) (by norm_num) (by norm_num)
      (by norm_num)]
    norm_num
  unfold Binary64.remainingDays mathFloor
  have c : ((9007199254740996 : Int) : ℚ) = 9007199254740996 := by norm_num
  rw [c, e1]
  exact Int.floor_eq_iff.2 ⟨by norm_num, by norm_num⟩

theorem binary64_farFuture_text :
    Binary64.calculateTimeRemaining farFutureProposal = some "62549994824590d 6h remaining" := by
  have hs : ¬ farFutureProposal.state ≠ "Active" := by decide
  unfold Binary64.calculateTimeRemaining
  rw [if_neg hs]
  simp only [binary64_farFuture_remaining, binary64_farFuture_days, binary64_remainingHours_eq]
  unfold Binary64.formatRemaining
  rw [numToString_eq_toString _ (by norm_num), numToString_eq_toString _ (by decide)]
  decide


/-- C5, as stated, fails. For the Active proposal with `endBlock = 12799` and
`currentBlock = 12800` the code returns `-1d -1h remaining`, while
`floor(remaining / 144)` and `floor((remaining mod 144) / 6)` give `-1d 23h remaining`.
For the Active proposal with `endBlock = 9007199254740996` and `currentBlock = 1` the
subtraction rounds and the code returns `62549994824590d 6h remaining`, while the stated
formulas give `62549994824590d 5h remaining`. -/
theorem binary64_calculateTimeRemaining_format_counterexample :
    expiredProposal.state = "Active" ∧
    Binary64.calculateTimeRemaining expiredProposal = some "-1d -1h remaining" ∧
    specText (specDays (expiredProposal.endBlock - expiredProposal.currentBlock))
      (specHours (expiredProposal.endBlock - expiredProposal.currentBlock))
      = "-1d 23h remaining" ∧
    Binary64.calculateTimeRemaining expiredProposal ≠
      some (specText (specDays (expiredProposal.endBlock - expiredProposal.currentBlock))
        (specHours (expiredProposal.endBlock - expiredProposal.currentBlock))) ∧
    farFutureProposal.state = "Active" ∧
    Binary64.calculateTimeRemaining farFutureProposal = some "62549994824590d 6h remaining" ∧
    specText (specDays (farFutureProposal.endBlock - farFutureProposal.currentBlock))
      (specHours (farFutureProposal.endBlock - farFutureProposal.currentBlock))
      = "62549994824590d 5h remaining" ∧
    Binary64.calculateTimeRemaining farFutureProposal ≠
      some (specText (specDays (farFutureProposal.endBlock - farFutureProposal.currentBlock))
        (specHours (farFutureProposal.endBlock - farFutureProposal.currentBlock))) := by
  have hb : |expiredProposal.endBlock - expiredProposal.currentBlock| < 2 ^ 53 := by decide
  have hc : Binary64.calculateTimeRemaining expiredProposal = some "-1d -1h remaining" := by
    rw [binary64_calculateTimeRemaining_eq _ hb, calculateTimeRemaining_of_active _ (by decide),
      remainingDays_eq_ediv, remainingHours_eq_ediv]
    decide
  have hs : specText (specDays (expiredProposal.endBlock - expiredProposal.currentBlock))
      (specHours (expiredProposal.endBlock - expiredProposal.currentBlock))
      = "-1d 23h remaining" := by decide
  have hs2 : specText (specDays (farFutureProposal.endBlock - farFutureProposal.currentBlock))
      (specHours (farFutureProposal.endBlock - farFutureProposal.currentBlock))
      = "62549994824590d 5h remaining" := by decide
  refine ⟨by decide, hc, hs, ?_, by decide, binary64_farFuture_text, hs2, ?_⟩
  · rw [hc, hs]; decide
  · rw [binary64_farFuture_text, hs2]; decide

/-- C5, amended: for every Active proposal whose `endBlock - currentBlock` is below
`2^53` in absolute value, `calculateTimeRemaining` returns the text
`{days}d {hours}h remaining` with `remaining = endBlock - currentBlock`,
`days = floor(remaining / 144)` and `hours = floor(r / 6)`, both in decimal, where `r` is
the remainder of `remaining` by 144 truncated toward zero (it takes the sign of
`remaining`); when `endBlock ≥ currentBlock`, `r` is `remaining mod 144`. -/
theorem binary64_calculateTimeRemaining_format (p : Proposal) (h : p.state = "Active")
    (hb : |p.endBlock - p.currentBlock| < 2 ^ 53) :
    Binary64.calculateTimeRemaining p =
      some (specText (specDays (p.endBlock - p.currentBlock))
        (truncHours (p.endBlock - p.currentBlock))) ∧
    (p.endBlock ≥ p.currentBlock →
      Int.tmod (p.endBlock - p.currentBlock) 144 = (p.endBlock - p.currentBlock) % 144) := by
  constructor
  · rw [binary64_calculateTimeRemaining_eq p hb, calculateTimeRemaining_of_active p h,
      specText_eq_formatRemaining, remainingDays_eq_ediv, remainingHours_eq_ediv,
      remainingBlocks, specDays, truncHours, Int.fdiv_eq_ediv _ (by decide),
      Int.fdiv_eq_ediv _ (by decide)]
  · intro hge
    exact Int.tmod_eq_emod (by omega) (by decide)

theorem binary64_calculateTimeRemaining_format_witness :
    (proposal1.state = "Active" ∧ |proposal1.endBlock - proposal1.currentBlock| < 2 ^ 53) ∧
    Binary64.calculateTimeRemaining proposal1 = some "4d 13h remaining" := by
  refine ⟨by decide, ?_⟩
  rw [(binary64_calculateTimeRemaining_format proposal1 (by decide) (by decide)).1]
  decide

/-- C10, as stated, fails: for the Active proposal with `endBlock = 9007199254740996` and
`currentBlock = 1` the subtraction rounds to 9007199254740996, the code computes 62549994824590
days and 6 hours, and `144 * days + 6 * hours` exceeds `endBlock - currentBlock`. -/
theorem binary64_calculateTimeRemaining_bounds_counterexample :
    farFutureProposal.state = "Active" ∧
    farFutureProposal.endBlock ≥ farFutureProposal.currentBlock ∧
    Binary64.remainingBlocks farFutureProposal = 9007199254740996 ∧
    Binary64.remainingDays (Binary64.remainingBlocks farFutureProposal) = 62549994824590 ∧
    Binary64.remainingHours (Binary64.remainingBlocks farFutureProposal) = 6 ∧
    Binary64.calculateTimeRemaining farFutureProposal
      = some "62549994824590d 6h remaining" ∧
    ¬ (144 * (62549994824590 : Int) + 6 * 6
        ≤ farFutureProposal.endBlock - farFutureProposal.currentBlock) := by
  refine ⟨by decide, by decide, binary64_farFuture_remaining, ?_, ?_,
    binary64_farFuture_text, by decide⟩
  · rw [binary64_farFuture_remaining, binary64_farFuture_days]
  · rw [binary64_farFuture_remaining, binary64_remainingHours_eq]
    decide

/-- C10, amended: for an Active proposal with `0 ≤ endBlock - currentBlock < 2^53`, the
days and hours that `calculateTimeRemaining` prints satisfy `days ≥ 0`, `0 ≤ hours ≤ 23`
and `144 * days + 6 * hours ≤ endBlock - currentBlock < 144 * days + 6 * hours + 6`. -/
theorem binary64_calculateTimeRemaining_bounds (p : Proposal) (h : p.state = "Active")
    (hge : p.endBlock ≥ p.currentBlock) (hb : p.endBlock - p.currentBlock < 2 ^ 53) :
    ∃ days hours : Int,
      days = Binary64.remainingDays (Binary64.remainingBlocks p) ∧
      hours = Binary64.remainingHours (Binary64.remainingBlocks p) ∧
      Binary64.calculateTimeRemaining p = some (Binary64.formatRemaining days hours) ∧
      0 ≤ days ∧ 0 ≤ hours ∧ hours ≤ 23 ∧
      144 * days + 6 * hours ≤ p.endBlock - p.currentBlock ∧
      p.endBlock - p.currentBlock < 144 * days + 6 * hours + 6 := by
  have habs : |p.endBlock - p.currentBlock| < 2 ^ 53 := by
    rw [abs_of_nonneg (by omega)]; exact hb
  have hs : ¬ p.state ≠ "Active" := fun hn => hn h
  have hc : Binary64.calculateTimeRemaining p =
      some (Binary64.formatRemaining (Binary64.remainingDays (Binary64.remainingBlocks p))
        (Binary64.remainingHours (Binary64.remainingBlocks p))) := by
    unfold Binary64.calculateTimeRemaining
    rw [if_neg hs]
  refine ⟨_, _, rfl, rfl, hc, ?_⟩
  rw [binary64_remainingBlocks_eq p habs, binary64_remainingDays_eq _ habs,
    binary64_remainingHours_eq, Int.tmod_eq_emod (by omega) (by decide)]
  omega

theorem binary64_calculateTimeRemaining_bounds_witness :
    (proposal1.state = "Active" ∧ proposal1.endBlock ≥ proposal1.currentBlock ∧
      proposal1.endBlock - proposal1.currentBlock < 2 ^ 53) ∧
    ∃ days hours : Int,
      days = Binary64.remainingDays (Binary64.remainingBlocks proposal1) ∧
      hours = Binary64.remainingHours (Binary64.remainingBlocks proposal1) ∧
      Binary64.calculateTimeRemaining proposal1 = some (Binary64.formatRemaining days hours) ∧
      0 ≤ days ∧ 0 ≤ hours ∧ hours ≤ 23 ∧
      144 * days + 6 * hours ≤ proposal1.endBlock - proposal1.currentBlock ∧
      proposal1.endBlock - proposal1.currentBlock < 144 * days + 6 * hours + 6 :=
  ⟨by decide, binary64_calculateTimeRemaining_bounds proposal1 (by decide) (by decide)
    (by decide)⟩


/-! ## The binary64 level on the remaining paths -/

theorem binary64_calculateTimeRemaining_null_iff (p : Proposal) :
    Binary64.calculateTimeRemaining p = none ↔ p.state ≠ "Active" := by
  unfold Binary64.calculateTimeRemaining
  by_cases hs : p.state ≠ "Active"
  · simp [hs]
  · simp only [if_neg hs]
    exact ⟨fun h => absurd h (Option.some_ne_none _), fun h => absurd h hs⟩

theorem binary64_calculateProgress_finite (p : Proposal) :
    (Binary64.calculateProgress p).forPercentage ≠ none ∧
    (Binary64.calculateProgress p).againstPercentage ≠ none := by
  by_cases hpos : 0 < (Binary64.calculateProgress p).total
  · obtain ⟨h1, h2⟩ := binary64_calculateProgress_of_pos p _ rfl hpos
    rw [h1, h2]
    exact ⟨Option.some_ne_none _, Option.some_ne_none _⟩
  · obtain ⟨h1, h2⟩ := binary64_calculateProgress_of_not_pos p _ rfl hpos
    rw [h1, h2]
    exact ⟨Option.some_ne_none _, Option.some_ne_none _⟩

theorem binary64_calculateProgress_zero_total (p : Proposal)
    (hf : 0 ≤ p.forVotes) (ha : 0 ≤ p.againstVotes) (hb : 0 ≤ p.abstainVotes)
    (h0 : p.forVotes + p.againstVotes + p.abstainVotes = 0) :
    Binary64.calculateProgress p
      = { forPercentage := some 0, againstPercentage := some 0, total := 0 } := by
  have ht := binary64_total_eq p hf ha hb (by omega)
  rw [h0, Int.cast_zero] at ht
  obtain ⟨h1, h2⟩ := binary64_calculateProgress_of_not_pos p 0 ht (lt_irrefl 0)
  cases hc : Binary64.calculateProgress p with
  | mk fp ap t =>
    rw [hc] at ht h1 h2
    simp only at ht h1 h2
    rw [ht, h1, h2]

theorem round64_neg_of_neg (x : ℚ) (hx : x < 0) : round64 x < 0 := by
  have h := round64_rel_error x
  rw [abs_of_neg hx, abs_le] at h
  have h2 : round64 x ≤ x + -x / 2 ^ 53 := by linarith
  have h3 : x + -x / 2 ^ 53 < 0 := by
    have : x + -x / 2 ^ 53 = x * (1 - 1 / 2 ^ 53) := by ring
    rw [this]
    exact mul_neg_of_neg_of_pos hx (by norm_num)
  linarith

theorem binary64_remainingBlocks_neg (p : Proposal) (h : p.currentBlock > p.endBlock) :
    Binary64.remainingBlocks p < 0 := by
  unfold Binary64.remainingBlocks Binary64.numSub
  have hx : (p.endBlock : ℚ) - (p.currentBlock : ℚ) < 0 := by
    have : (p.endBlock : ℚ) < (p.currentBlock : ℚ) := by exact_mod_cast h
    linarith
  have h1 := round64_neg_of_neg _ hx
  have h2 := Int.floor_le (round64 ((p.endBlock : ℚ) - (p.currentBlock : ℚ)))
  have h3 : ((Int.floor (round64 ((p.endBlock : ℚ) - (p.currentBlock : ℚ))) : Int) : ℚ) < 0 :=
    lt_of_le_of_lt h2 h1
  exact_mod_cast h3

theorem binary64_remainingDays_neg (r : Int) (h : r < 0) : Binary64.remainingDays r ≤ -1 := by
  unfold Binary64.remainingDays mathFloor
  have hx : (r : ℚ) / 144 < 0 := by
    have : (r : ℚ) < 0 := by exact_mod_cast h
    exact div_neg_of_neg_of_pos this (by norm_num)
  have h1 := round64_neg_of_neg _ hx
  have h2 := Int.floor_le (round64 ((r : ℚ) / 144))
  have h3 : ((Int.floor (round64 ((r : ℚ) / 144)) : Int) : ℚ) < 0 := lt_of_le_of_lt h2 h1
  have h4 : Int.floor (round64 ((r : ℚ) / 144)) < 0 := by exact_mod_cast h3
  omega

theorem binary64_formatRemaining_neg (d h : Int) (hd : d ≤ -1) :
    ∃ rest : String, Binary64.formatRemaining d h = "-" ++ rest := by
  refine ⟨Binary64.natToString d.natAbs ++ "d " ++ Binary64.numToString h ++ "h remaining", ?_⟩
  unfold Binary64.formatRemaining Binary64.numToString
  rw [if_pos (show d < 0 by omega)]
  simp only [String.append_assoc]

theorem binary64_calculateTimeRemaining_expired (p : Proposal) (h : p.state = "Active")
    (hlt : p.currentBlock > p.endBlock) :
    ∃ days hours : Int,
      days = Binary64.remainingDays (Binary64.remainingBlocks p) ∧
      hours = Binary64.remainingHours (Binary64.remainingBlocks p) ∧
      Binary64.calculateTimeRemaining p = some (Binary64.formatRemaining days hours) ∧
      days ≤ -1 ∧ hours ≤ 0 ∧
      (∃ rest : String, Binary64.formatRemaining days hours = "-" ++ rest) ∧
      Binary64.calculateTimeRemaining p ≠ none ∧
      Binary64.calculateTimeRemaining p ≠ some "0d 0h remaining" := by
  have hs : ¬ p.state ≠ "Active" := fun hn => hn h
  have hc : Binary64.calculateTimeRemaining p =
      some (Binary64.formatRemaining (Binary64.remainingDays (Binary64.remainingBlocks p))
        (Binary64.remainingHours (Binary64.remainingBlocks p))) := by
    unfold Binary64.calculateTimeRemaining
    rw [if_neg hs]
  have hr := binary64_remainingBlocks_neg p hlt
  have hd := binary64_remainingDays_neg _ hr
  have hh : Binary64.remainingHours (Binary64.remainingBlocks p) ≤ 0 := by
    rw [binary64_remainingHours_eq]
    have h1 := tmod_nonpos_of_nonpos (Binary64.remainingBlocks p) (by omega)
    omega
  obtain ⟨rest, hrest⟩ := binary64_formatRemaining_neg _
    (Binary64.remainingHours (Binary64.remainingBlocks p)) hd
  refine ⟨_, _, rfl, rfl, hc, hd, hh, ⟨rest, hrest⟩, ?_, ?_⟩
  · rw [hc]; exact Option.some_ne_none _
  · rw [hc, hrest]
    intro he
    exact minus_append_ne_zero_text rest (Option.some.inj he)

end Nebulith
